import Mathlib

/-!
Verification of the mini-agenix resolution core (src/plugin.cpp).

The plugin's core is `resolveAge`: given an encrypted-file path and an
optional expected SHA-256 hash, it either returns an already-ensured
content-addressed store path (cache hit), or discovers age identities,
decrypts, verifies the hash and commits the plaintext to the store.

The embedding makes every external collaborator an explicit component of a
`World` value: the filesystem probes (`std::filesystem::exists`,
`pathAccessible`), the environment (`AGE_IDENTITY_FILE`, `getHome`), the
content-addressed store (`ensurePath` with substitution, and
`addToStoreFromDump`), the external `age` process, the `pureEval` setting
and the SHA-256 digest function.  Digest values are abstract naturals:
the plugin never inspects a digest, it only compares digests for equality
and renders them, so the development is parametric in the digest function
(a `World` field).  Execution is recorded as an ordered list of `Event`s
so that ordering properties (cache hit performs no identity discovery, the
purity error precedes all filesystem access, the warning follows the
commit, ...) are statable.
-/

namespace MiniAgenix

/-- The hash algorithms nix can tag a hash with (`HashAlgorithm` in nix). -/
inductive HashAlgorithm where
  | MD5
  | SHA1
  | SHA256
  | SHA512
deriving DecidableEq

/-- An algorithm-tagged digest (nix `Hash`).  The digest is an abstract
natural number standing for the digest bytes. -/
structure Hash where
  algo : HashAlgorithm
  digest : Nat
deriving DecidableEq

/-- A content-addressed store path.  In nix, `makeFixedOutputPath` derives
the path deterministically (and injectively) from the name and the
fixed-output hash, so the model takes the pair itself as the path. -/
structure StorePath where
  name : String
  hash : Hash
deriving DecidableEq

/-- `Store.makeFixedOutputPath(name, FixedOutputInfo(Flat, hash, no refs))`
from plugin.cpp lines 97-103: the deterministic content address. -/
def makeFixedOutputPath (name : String) (h : Hash) : StorePath :=
  { name := name, hash := h }

/-- The filesystem as seen through the two probes the plugin uses:
`std::filesystem::exists` and nix `pathAccessible` (true only for a path
that exists and is readable). -/
structure FileSystem where
  pathExists : String → Bool
  pathAccessible : String → Bool

/-- The process environment the plugin reads: `getEnv("AGE_IDENTITY_FILE")`
and `getHome()` (modelled as `none` when `getHome` throws). -/
structure Env where
  ageIdentityFile : Option String
  home : Option String

/-- Local store contents: the committed paths with their bytes
(bytes as lists of naturals, so embedded NUL bytes are representable). -/
abbrev Store := List (StorePath × List Nat)

/-- Whether a path is already present in the local store. -/
def storeHas (s : Store) (p : StorePath) : Bool :=
  s.any (fun e => e.1 = p)

/-- The bytes stored under a path, if present. -/
def storeContent (s : Store) (p : StorePath) : Option (List Nat) :=
  (s.find? (fun e => e.1 = p)).map (fun e => e.2)

/-- The whole external world of one `resolveAge` call. -/
structure World where
  fs : FileSystem
  env : Env
  store : Store
  /-- The substituters: content obtainable for a store path from a remote
  cache, if any. -/
  subst : StorePath → Option (List Nat)
  /-- The external `age --decrypt` invocation: ciphertext path and identity
  files to plaintext bytes, or the tool's diagnostic text (`ExecError`). -/
  decryptFn : String → List String → Except String (List Nat)
  /-- `state.settings.pureEval`. -/
  pureEval : Bool
  /-- The SHA-256 digest of a byte string (`hashString`), abstract. -/
  sha256 : List Nat → Nat

/-- nix `hashString(HashAlgorithm::SHA256, content)` (plugin.cpp line 180). -/
def hashString (w : World) (content : List Nat) : Hash :=
  { algo := HashAlgorithm.SHA256, digest := w.sha256 content }

/-- `Store::ensurePath` (plugin.cpp lines 108-113): succeeds if the path is
already valid locally, or if a substituter can provide it (adding it to the
local store); `none` models the thrown `Error` on failure. -/
def ensurePath (w : World) (p : StorePath) : Option Store :=
  if storeHas w.store p then some w.store
  else
    match w.subst p with
    | some c => some ((p, c) :: w.store)
    | none => none

/-- `Store::addToStoreFromDump` with `Flat`/SHA-256 and no references
(plugin.cpp lines 196-204): derives the fixed-output path from the name and
the content's SHA-256 hash, stores the bytes if not already present
(idempotent), and returns the path. -/
def addToStoreFromDump (w : World) (s : Store) (name : String) (content : List Nat) :
    StorePath × Store :=
  let p := makeFixedOutputPath name (hashString w content)
  (p, if storeHas s p then s else (p, content) :: s)

/-- `IdentityDiscovery` (plugin.cpp lines 21-24). -/
structure IdentityDiscovery where
  candidates : List String
  usable : List String
deriving DecidableEq

/-- `discoverIdentities` (plugin.cpp lines 26-47): `AGE_IDENTITY_FILE`, when
set, is the sole candidate; otherwise the two fixed default paths under the
home directory, or no candidate at all when the home directory cannot be
determined.  `usable` is the accessible subset, in candidate order. -/
def discoverIdentities (env : Env) (fs : FileSystem) : IdentityDiscovery :=
  let candidates :=
    match env.ageIdentityFile with
    | some f => [f]
    | none =>
      match env.home with
      | some home => [home ++ "/.ssh/id_ed25519", home ++ "/.ssh/id_rsa"]
      | none => []
  { candidates := candidates, usable := candidates.filter fs.pathAccessible }

/-- `stripAgeSuffix` (plugin.cpp lines 60-65): drop a trailing ".age"
(`ends_with` then `substr`), expressed over the character list. -/
def stripAgeSuffix (name : String) : String :=
  let r := name.data.reverse
  if r.take 4 = [('e' : Char), ('g' : Char), ('a' : Char), ('.' : Char)] then
    String.mk ((r.drop 4).reverse)
  else name

/-- The characters of the last path segment: everything after the final
slash. -/
def lastSegment (cs : List Char) : List Char :=
  (cs.reverse.takeWhile (fun c => c ≠ '/')).reverse

/-- `CanonPath::baseName` as used on plugin.cpp line 90: the last segment
of the canonical path, `none` when there is none (the root path). -/
def baseName (p : String) : Option String :=
  let seg := lastSegment p.data
  if seg.isEmpty then none else some (String.mk seg)

/-- The store name of a resolution: the ciphertext's base name (fallback
"source") with a trailing ".age" stripped (plugin.cpp lines 90-91). -/
def resolvedName (file : String) : String :=
  stripAgeSuffix ((baseName file).getD ("source"))

/-- `describeCandidate` (plugin.cpp lines 67-78). -/
def describeCandidate (fs : FileSystem) (p : String) : String :=
  if fs.pathExists p = false then p ++ (" (not found)")
  else if fs.pathAccessible p = false then p ++ (" (not readable)")
  else p ++ (" (found)")

/-- The comma-joined candidate descriptions, mirroring the accumulation
loop of plugin.cpp lines 132-137. -/
def joinComma : List String → String
  | [] => ("")
  | [x] => x
  | x :: y :: t => x ++ (", ") ++ joinComma (y :: t)

/-- The textual tag of an algorithm in SRI rendering (nix `printHashAlgo`). -/
def algoName : HashAlgorithm → String
  | HashAlgorithm.MD5 => ("md5")
  | HashAlgorithm.SHA1 => ("sha1")
  | HashAlgorithm.SHA256 => ("sha256")
  | HashAlgorithm.SHA512 => ("sha512")

/-- The base-64 body of an SRI rendering, as an injective rendering of the
abstract digest value. -/
def digestText (d : Nat) : String :=
  toString d

/-- `Hash::to_string(HashFormat::SRI, true)`: the algorithm tag, a dash and
the digest body — the self-describing, re-enterable textual form. -/
def sriString (h : Hash) : String :=
  algoName h.algo ++ ("-") ++ digestText h.digest

/-- Error message of plugin.cpp line 95. -/
def unsupportedAlgoMsg (who : String) : String :=
  who ++ (" only supports SHA-256 hashes")

/-- Error message of plugin.cpp lines 117-120. -/
def purityMsg (who : String) : String :=
  who ++ (" requires 'hash' in pure evaluation mode. Run with '--impure' for first-time decryption, then add the printed hash to your expression.")

/-- The `detail` string of plugin.cpp lines 128-138. -/
def noIdentityDetail (fs : FileSystem) (candidates : List String) : String :=
  if candidates.isEmpty then ("no candidate paths (could not determine home directory)")
  else ("checked: ") ++ joinComma (candidates.map (describeCandidate fs))

/-- The no-usable-identity message of plugin.cpp lines 140-151, with the
extra hash-locked note when an expected hash was supplied. -/
def noIdentityMsg (fs : FileSystem) (who : String) (candidates : List String)
    (hashProvided : Bool) : String :=
  let msg := who ++ (": no usable identity found. ") ++ noIdentityDetail fs candidates
      ++ (". Set AGE_IDENTITY_FILE or ensure a key exists at a default path.")
  if hashProvided then
    msg ++ (" The hash-locked store path is not present and no identity was found to decrypt. You may need to run an initial impure evaluation on a machine with the identity, or populate the store path via substitution.")
  else msg

/-- Error message of plugin.cpp lines 158-162. -/
def sourceNotFoundMsg (who file : String) : String :=
  who ++ (": file '") ++ file ++ ("' does not exist. If you are using flakes, ensure the file has been added to git.")

/-- Error message of plugin.cpp lines 171-175. -/
def decryptFailedMsg (who file err : String) : String :=
  who ++ (": age failed to decrypt '") ++ file ++ ("': ") ++ err

/-- The hash-mismatch message of plugin.cpp lines 184-192: both digests in
SRI form, built from nothing but the caller name, the file, and the two
digests (never from the decrypted bytes themselves). -/
def hashMismatchMsg (who file : String) (specified actual : Hash) : String :=
  who ++ (": hash mismatch for '") ++ file ++ ("'.\n  specified: ")
      ++ sriString specified ++ ("\n  got:       ") ++ sriString actual
      ++ ("\n(did you update the encrypted file without updating the hash?)")

/-- The warning of plugin.cpp lines 207-211: the computed hash in SRI form,
ready to paste as a `hash = "...";` attribute. -/
def warnHashMsg (who file : String) (actual : Hash) : String :=
  who ++ (": hash for '") ++ file ++ ("' is:\n  hash = \"") ++ sriString actual ++ ("\";")

/-- The error taxonomy of a resolution, each carrying its rendered message. -/
inductive ResolveError where
  | unsupportedHashAlgo (msg : String)
  | purityViolation (msg : String)
  | noUsableIdentity (msg : String)
  | sourceNotFound (msg : String)
  | decryptionFailed (msg : String)
  | hashMismatch (msg : String)
deriving DecidableEq

/-- The observable effects of one resolution, in execution order. -/
inductive Event where
  /-- `ensurePath` was attempted for a store path (hit or miss). -/
  | ensure (p : StorePath)
  /-- `discoverIdentities` ran (its filesystem probes touch only identity
  candidate paths, never the ciphertext). -/
  | identityDiscovery
  /-- `std::filesystem::exists` probe of the ciphertext path. -/
  | ciphertextCheck (p : String)
  /-- The external `age` process was invoked (reads the ciphertext). -/
  | decryptCall (p : String) (ids : List String)
  /-- `addToStoreFromDump` committed content under a path. -/
  | commit (p : StorePath)
  /-- A `warn` diagnostic was emitted. -/
  | warnEv (msg : String)
deriving DecidableEq

/-- Outcome of `resolveAge`: the result, the store after the call and the
ordered event trace. -/
structure ResolveResult where
  result : Except ResolveError StorePath
  store : Store
  events : List Event

/-- The tail of `resolveAge` after the cache check and the purity gate
(plugin.cpp lines 125-213): discovery, ciphertext check, decryption,
verification, commit and the no-hash warning. -/
def resolveDecrypt (w : World) (who file name : String) (expectedHash : Option Hash)
    (ev0 : List Event) : ResolveResult :=
  let d := discoverIdentities w.env w.fs
  let ev1 := ev0 ++ [Event.identityDiscovery]
  if d.usable.isEmpty then
    { result := Except.error (ResolveError.noUsableIdentity
        (noIdentityMsg w.fs who d.candidates expectedHash.isSome)),
      store := w.store, events := ev1 }
  else
    let ev2 := ev1 ++ [Event.ciphertextCheck file]
    if w.fs.pathExists file = false then
      { result := Except.error (ResolveError.sourceNotFound (sourceNotFoundMsg who file)),
        store := w.store, events := ev2 }
    else
      let ev3 := ev2 ++ [Event.decryptCall file d.usable]
      match w.decryptFn file d.usable with
      | Except.error e =>
        { result := Except.error (ResolveError.decryptionFailed (decryptFailedMsg who file e)),
          store := w.store, events := ev3 }
      | Except.ok content =>
        let actualHash := hashString w content
        match expectedHash with
        | some eh =>
          if actualHash ≠ eh then
            { result := Except.error (ResolveError.hashMismatch
                (hashMismatchMsg who file eh actualHash)),
              store := w.store, events := ev3 }
          else
            let r := addToStoreFromDump w w.store name content
            { result := Except.ok r.1, store := r.2, events := ev3 ++ [Event.commit r.1] }
        | none =>
          let r := addToStoreFromDump w w.store name content
          { result := Except.ok r.1, store := r.2,
            events := ev3 ++ [Event.commit r.1, Event.warnEv (warnHashMsg who file actualHash)] }

/-- `resolveAge` (plugin.cpp lines 83-214).  The match on `expectedHash` in
`resolveDecrypt` mirrors `if (expectedHash && actualHash != *expectedHash)`,
followed by the unconditional commit and the conditional warning. -/
def resolveAge (w : World) (who file : String) (expectedHash : Option Hash) : ResolveResult :=
  let name := resolvedName file
  match expectedHash with
  | some h =>
    if h.algo ≠ HashAlgorithm.SHA256 then
      { result := Except.error (ResolveError.unsupportedHashAlgo (unsupportedAlgoMsg who)),
        store := w.store, events := [] }
    else
      let expectedPath := makeFixedOutputPath name h
      match ensurePath w expectedPath with
      | some store2 =>
        { result := Except.ok expectedPath, store := store2, events := [Event.ensure expectedPath] }
      | none => resolveDecrypt w who file name (some h) [Event.ensure expectedPath]
  | none =>
    if w.pureEval then
      { result := Except.error (ResolveError.purityViolation (purityMsg who)),
        store := w.store, events := [] }
    else
      resolveDecrypt w who file name none []

/-- Error of the string-oriented caller `builtins.readAge`: either a
resolution error, or the NUL-byte rejection (plugin.cpp lines 274-279). -/
inductive ReadError where
  | resolve (e : ResolveError)
  | nulByte (msg : String)
deriving DecidableEq

/-- The NUL-byte rejection message of plugin.cpp line 277. -/
def readAgeNulMsg (file : String) : String :=
  ("builtins.readAge: the decrypted contents of '") ++ file ++ ("' cannot be represented as a Nix string")

/-- Outcome of `builtins.readAge`: the string contents (as bytes), the
store after the call and the event trace of the inner resolution. -/
structure ReadResult where
  result : Except ReadError (List Nat)
  store : Store
  events : List Event

/-- `prim_readAge` (plugin.cpp lines 267-282): resolve, read the committed
bytes back from the store, and reject content holding an embedded NUL. -/
def prim_readAge (w : World) (file : String) (expectedHash : Option Hash) : ReadResult :=
  let r := resolveAge w ("builtins.readAge") file expectedHash
  match r.result with
  | Except.error e => { result := Except.error (ReadError.resolve e), store := r.store, events := r.events }
  | Except.ok p =>
    let content := (storeContent r.store p).getD []
    if content.contains 0 then
      { result := Except.error (ReadError.nulByte (readAgeNulMsg file)),
        store := r.store, events := r.events }
    else
      { result := Except.ok content, store := r.store, events := r.events }

/-- The hash-attribute handling of `parseAgeAttrs` (plugin.cpp lines
234-238): an absent attribute and an empty string both leave the expected
hash unset; otherwise the string is parsed (`newHashAllowEmpty`, modelled
as an arbitrary parse function). -/
def parseHashAttr (parse : String → Hash) (attr : Option String) : Option Hash :=
  match attr with
  | none => none
  | some s => if s.isEmpty then none else some (parse s)

/-- Substring containment, at the character-list level. -/
def containsStr (hay needle : String) : Prop :=
  ∃ pre post : List Char, hay.data = pre ++ needle.data ++ post

/-- Whether an event is a warning. -/
def isWarn : Event → Bool
  | Event.warnEv _ => true
  | _ => false

/-- Whether an event is a store commit. -/
def isCommit : Event → Bool
  | Event.commit _ => true
  | _ => false

/-- Whether some warning occurs strictly before some commit in a trace. -/
def warnBeforeCommit (l : List Event) : Bool :=
  match l with
  | [] => false
  | e :: t => (isWarn e && t.any isCommit) || warnBeforeCommit t

/-- A concrete injective stand-in digest function for witnesses. -/
def sampleSha (c : List Nat) : Nat :=
  c.foldl (fun a b => a * 257 + b + 1) 7

/-- A filesystem where every path exists and is readable. -/
def fsAll : FileSystem :=
  { pathExists := fun _ => true, pathAccessible := fun _ => true }

/-- A filesystem where no path exists. -/
def fsNone : FileSystem :=
  { pathExists := fun _ => false, pathAccessible := fun _ => false }

/-- A filesystem with one existing but unreadable path. -/
def fsLocked : FileSystem :=
  { pathExists := fun p => p = ("/id/key.txt"), pathAccessible := fun _ => false }

/-- An environment with an explicit identity override. -/
def envId : Env :=
  { ageIdentityFile := some ("/id/key.txt"), home := none }

/-- An environment with neither an override nor a home directory. -/
def envNone : Env :=
  { ageIdentityFile := none, home := none }

/-- An environment with a home directory and no override. -/
def envHome : Env :=
  { ageIdentityFile := none, home := some ("/home/u") }

/-- A concrete expected hash. -/
def hashA : Hash :=
  { algo := HashAlgorithm.SHA256, digest := 42 }

/-- The fixed-output path of `hashA` under the name "secret". -/
def pathA : StorePath :=
  makeFixedOutputPath ("secret") hashA

/-- Substituters that provide nothing. -/
def noSubst : StorePath → Option (List Nat) :=
  fun _ => none

/-- A world whose store already holds `pathA`: cache hits succeed with no
identity, no decryptor and no readable filesystem at all. -/
def wHit : World :=
  { fs := fsNone, env := envNone, store := [(pathA, [1, 2])], subst := noSubst,
    decryptFn := fun _ _ => Except.error ("boom"), pureEval := true, sha256 := sampleSha }

/-- A world where decryption of anything yields the two bytes 104, 105. -/
def wPlain : World :=
  { fs := fsAll, env := envId, store := [], subst := noSubst,
    decryptFn := fun _ _ => Except.ok [104, 105], pureEval := false, sha256 := sampleSha }

/-- `wPlain` with pure evaluation enabled. -/
def wPure : World :=
  { wPlain with pureEval := true }

/-- `wPlain` but decrypting to bytes with an embedded NUL. -/
def wNul : World :=
  { wPlain with decryptFn := fun _ _ => Except.ok [104, 0, 105] }

/-- A world with no identity candidate at all (no override, no home). -/
def wNoId : World :=
  { fs := fsNone, env := envNone, store := [], subst := noSubst,
    decryptFn := fun _ _ => Except.error ("boom"), pureEval := false, sha256 := sampleSha }

/-- A world whose sole override candidate exists but is unreadable. -/
def wLocked : World :=
  { fs := fsLocked, env := envId, store := [], subst := noSubst,
    decryptFn := fun _ _ => Except.error ("boom"), pureEval := false, sha256 := sampleSha }

/-- A hash tagged with an unsupported algorithm. -/
def hashB : Hash :=
  { algo := HashAlgorithm.SHA1, digest := 42 }

/-- A deliberately wrong SHA-256 hash (matches no sample content). -/
def hashWrong : Hash :=
  { algo := HashAlgorithm.SHA256, digest := 5 }

/-- Every string contains itself. -/
theorem containsStr_refl (s : String) : containsStr s s :=
  ⟨[], [], by simp⟩

/-- Containment in the right part of an append. -/
theorem containsStr_append_left (a : String) {b n : String} (h : containsStr b n) :
    containsStr (a ++ b) n := by
  obtain ⟨p, q, hh⟩ := h
  exact ⟨a.data ++ p, q, by simp [hh]⟩

/-- Containment in the left part of an append. -/
theorem containsStr_append_right {a n : String} (b : String) (h : containsStr a n) :
    containsStr (a ++ b) n := by
  obtain ⟨p, q, hh⟩ := h
  exact ⟨p, q ++ b.data, by simp [hh]⟩

/-- A member of a list is contained in its comma-join. -/
theorem mem_joinComma (l : List String) (s : String) (h : s ∈ l) :
    containsStr (joinComma l) s := by
  induction l with
  | nil => cases h
  | cons x t ih =>
    cases t with
    | nil =>
      have hs : s = x := by simpa using h
      subst hs
      simpa [joinComma] using containsStr_refl s
    | cons y t2 =>
      rcases List.mem_cons.mp h with hs | hmem
      · subst hs
        exact containsStr_append_right _ (containsStr_append_right _ (containsStr_refl s))
      · exact containsStr_append_left _ (ih hmem)

/-- The committed path is present in the store `addToStoreFromDump` returns. -/
theorem storeHas_addToStoreFromDump (w : World) (s : Store) (name : String) (c : List Nat) :
    storeHas (addToStoreFromDump w s name c).2 (addToStoreFromDump w s name c).1 = true := by
  cases hc : storeHas s (makeFixedOutputPath name (hashString w c)) with
  | true => simp [addToStoreFromDump, hc]
  | false =>
    simp only [storeHas] at hc
    simp [addToStoreFromDump, storeHas, hc]

/-- Run shape: cache hit (an expected SHA-256 hash whose derived path can be
ensured). -/
theorem resolveAge_hit_eq (w : World) (who file : String) (h : Hash) (s2 : Store)
    (halgo : h.algo = HashAlgorithm.SHA256)
    (hens : ensurePath w (makeFixedOutputPath (resolvedName file) h) = some s2) :
    resolveAge w who file (some h) =
      { result := Except.ok (makeFixedOutputPath (resolvedName file) h),
        store := s2,
        events := [Event.ensure (makeFixedOutputPath (resolvedName file) h)] } := by
  unfold resolveAge
  simp [halgo, hens]

/-- Run shape: discovery finds no usable identity. -/
theorem resolveDecrypt_noId_eq (w : World) (who file name : String) (eh : Option Hash)
    (ev0 : List Event) (hu : (discoverIdentities w.env w.fs).usable.isEmpty = true) :
    resolveDecrypt w who file name eh ev0 =
      { result := Except.error (ResolveError.noUsableIdentity
          (noIdentityMsg w.fs who (discoverIdentities w.env w.fs).candidates eh.isSome)),
        store := w.store,
        events := ev0 ++ [Event.identityDiscovery] } := by
  unfold resolveDecrypt
  simp [hu]

/-- Run shape: full decryption with no expected hash — commit, then warn. -/
theorem resolveDecrypt_none_eq (w : World) (who file name : String) (ev0 : List Event)
    (c : List Nat)
    (hu : (discoverIdentities w.env w.fs).usable.isEmpty = false)
    (hex : w.fs.pathExists file = true)
    (hd : w.decryptFn file (discoverIdentities w.env w.fs).usable = Except.ok c) :
    resolveDecrypt w who file name none ev0 =
      { result := Except.ok (makeFixedOutputPath name (hashString w c)),
        store := (addToStoreFromDump w w.store name c).2,
        events := ev0 ++ [Event.identityDiscovery, Event.ciphertextCheck file,
          Event.decryptCall file (discoverIdentities w.env w.fs).usable,
          Event.commit (makeFixedOutputPath name (hashString w c)),
          Event.warnEv (warnHashMsg who file (hashString w c))] } := by
  unfold resolveDecrypt
  simp [hu, hex, hd, addToStoreFromDump]

/-- Run shape: full decryption whose hash matches the expected one. -/
theorem resolveDecrypt_match_eq (w : World) (who file name : String) (ev0 : List Event)
    (c : List Nat) (h : Hash)
    (hu : (discoverIdentities w.env w.fs).usable.isEmpty = false)
    (hex : w.fs.pathExists file = true)
    (hd : w.decryptFn file (discoverIdentities w.env w.fs).usable = Except.ok c)
    (hm : hashString w c = h) :
    resolveDecrypt w who file name (some h) ev0 =
      { result := Except.ok (makeFixedOutputPath name (hashString w c)),
        store := (addToStoreFromDump w w.store name c).2,
        events := ev0 ++ [Event.identityDiscovery, Event.ciphertextCheck file,
          Event.decryptCall file (discoverIdentities w.env w.fs).usable,
          Event.commit (makeFixedOutputPath name (hashString w c))] } := by
  unfold resolveDecrypt
  simp [hu, hex, hd, hm, addToStoreFromDump]

/-- Run shape: full decryption whose hash disagrees with the expected one. -/
theorem resolveDecrypt_mismatch_eq (w : World) (who file name : String) (ev0 : List Event)
    (c : List Nat) (h : Hash)
    (hu : (discoverIdentities w.env w.fs).usable.isEmpty = false)
    (hex : w.fs.pathExists file = true)
    (hd : w.decryptFn file (discoverIdentities w.env w.fs).usable = Except.ok c)
    (hne : hashString w c ≠ h) :
    resolveDecrypt w who file name (some h) ev0 =
      { result := Except.error (ResolveError.hashMismatch
          (hashMismatchMsg who file h (hashString w c))),
        store := w.store,
        events := ev0 ++ [Event.identityDiscovery, Event.ciphertextCheck file,
          Event.decryptCall file (discoverIdentities w.env w.fs).usable] } := by
  unfold resolveDecrypt
  simp [hu, hex, hd, hne]

/-- A successful decrypting run determines its path: the content address of
the decrypted bytes, and any expected hash equals the computed one. -/
theorem resolveDecrypt_result_ok (w : World) (who file name : String) (eh : Option Hash)
    (ev0 : List Event) (p : StorePath)
    (hok : (resolveDecrypt w who file name eh ev0).result = Except.ok p) :
    ∃ c, w.decryptFn file (discoverIdentities w.env w.fs).usable = Except.ok c ∧
      p = makeFixedOutputPath name (hashString w c) ∧
      (eh = none ∨ eh = some (hashString w c)) := by
  unfold resolveDecrypt at hok
  cases hu : (discoverIdentities w.env w.fs).usable.isEmpty with
  | true => simp [hu] at hok
  | false =>
    cases hex : w.fs.pathExists file with
    | false => simp [hu, hex] at hok
    | true =>
      cases hdec : w.decryptFn file (discoverIdentities w.env w.fs).usable with
      | error e => simp [hu, hex, hdec] at hok
      | ok c =>
        refine ⟨c, rfl, ?_⟩
        cases eh with
        | none =>
          simp [hu, hex, hdec, addToStoreFromDump] at hok
          exact ⟨hok.symm, Or.inl rfl⟩
        | some h =>
          by_cases hm : hashString w c = h
          · simp [hu, hex, hdec, hm, addToStoreFromDump] at hok
            exact ⟨by rw [hok.symm, hm], Or.inr (by rw [hm])⟩
          · simp [hu, hex, hdec, hm] at hok

/-- A decrypting run never fails with the purity error. -/
theorem resolveDecrypt_no_purity (w : World) (who file name : String) (eh : Option Hash)
    (ev0 : List Event) (m : String) :
    (resolveDecrypt w who file name eh ev0).result ≠
      Except.error (ResolveError.purityViolation m) := by
  intro hok
  unfold resolveDecrypt at hok
  cases hu : (discoverIdentities w.env w.fs).usable.isEmpty with
  | true => simp [hu] at hok
  | false =>
    cases hex : w.fs.pathExists file with
    | false => simp [hu, hex] at hok
    | true =>
      cases hdec : w.decryptFn file (discoverIdentities w.env w.fs).usable with
      | error e => simp [hu, hex, hdec] at hok
      | ok c =>
        cases eh with
        | none => simp [hu, hex, hdec] at hok
        | some h =>
          by_cases hm : hashString w c = h
          · simp [hu, hex, hdec, hm] at hok
          · simp [hu, hex, hdec, hm] at hok

/-- The no-identity message names every candidate with its status. -/
theorem noIdentityMsg_contains_candidate (fs : FileSystem) (who : String)
    (candidates : List String) (b : Bool) (c : String) (hc : c ∈ candidates) :
    containsStr (noIdentityMsg fs who candidates b) (describeCandidate fs c) := by
  have hj : containsStr (joinComma (candidates.map (describeCandidate fs)))
      (describeCandidate fs c) :=
    mem_joinComma _ _ (List.mem_map_of_mem _ hc)
  have hdetail : containsStr (noIdentityDetail fs candidates) (describeCandidate fs c) := by
    cases candidates with
    | nil => cases hc
    | cons x t =>
      unfold noIdentityDetail
      simpa using containsStr_append_left _ hj
  have hbase : containsStr
      (who ++ (": no usable identity found. ") ++ noIdentityDetail fs candidates
        ++ (". Set AGE_IDENTITY_FILE or ensure a key exists at a default path."))
      (describeCandidate fs c) :=
    containsStr_append_right _ (containsStr_append_left _ hdetail)
  unfold noIdentityMsg
  cases b with
  | false => simpa using hbase
  | true => simpa using containsStr_append_right _ hbase

/-- With no candidate at all, the message says the home directory could not
be determined. -/
theorem noIdentityMsg_contains_home (fs : FileSystem) (who : String) (b : Bool) :
    containsStr (noIdentityMsg fs who [] b)
      ("no candidate paths (could not determine home directory)") := by
  have hdetail : containsStr (noIdentityDetail fs [])
      ("no candidate paths (could not determine home directory)") := by
    unfold noIdentityDetail
    simpa using containsStr_refl _
  have hbase : containsStr
      (who ++ (": no usable identity found. ") ++ noIdentityDetail fs []
        ++ (". Set AGE_IDENTITY_FILE or ensure a key exists at a default path."))
      ("no candidate paths (could not determine home directory)") :=
    containsStr_append_right _ (containsStr_append_left _ hdetail)
  unfold noIdentityMsg
  cases b with
  | false => simpa using hbase
  | true => simpa using containsStr_append_right _ hbase

/-- With an expected hash supplied, the message carries the substitution /
impure-run note. -/
theorem noIdentityMsg_contains_substNote (fs : FileSystem) (who : String)
    (candidates : List String) :
    containsStr (noIdentityMsg fs who candidates true)
      (" The hash-locked store path is not present and no identity was found to decrypt. You may need to run an initial impure evaluation on a machine with the identity, or populate the store path via substitution.") := by
  unfold noIdentityMsg
  simpa using containsStr_append_left _ (containsStr_refl _)

/-- An inaccessible candidate is described as missing or as unreadable. -/
theorem describeCandidate_status (fs : FileSystem) (c : String)
    (hacc : fs.pathAccessible c = false) :
    describeCandidate fs c = c ++ (" (not found)") ∨
    describeCandidate fs c = c ++ (" (not readable)") := by
  unfold describeCandidate
  cases hex : fs.pathExists c with
  | false => exact Or.inl (by simp [hex])
  | true => exact Or.inr (by simp [hex, hacc])

/-- When discovery finds nothing usable, every candidate is inaccessible. -/
theorem usable_empty_inaccessible (env : Env) (fs : FileSystem)
    (hu : (discoverIdentities env fs).usable = []) (c : String)
    (hc : c ∈ (discoverIdentities env fs).candidates) :
    fs.pathAccessible c = false := by
  have heq : (discoverIdentities env fs).usable =
      (discoverIdentities env fs).candidates.filter fs.pathAccessible := rfl
  rw [heq] at hu
  simpa using List.filter_eq_nil_iff.mp hu c hc

/-- A successful resolution determines its store path: the fixed-output path
of the expected hash when one was supplied, the fixed-output path of the
decrypted content's hash otherwise. -/
theorem resolveAge_result_ok (w : World) (who file : String) (eh : Option Hash) (p : StorePath)
    (hok : (resolveAge w who file eh).result = Except.ok p) :
    (∀ h, eh = some h → p = makeFixedOutputPath (resolvedName file) h) ∧
    (eh = none → ∃ c, w.decryptFn file (discoverIdentities w.env w.fs).usable = Except.ok c ∧
        p = makeFixedOutputPath (resolvedName file) (hashString w c)) := by
  unfold resolveAge at hok
  cases eh with
  | none =>
    refine ⟨fun h hcontra => Option.noConfusion hcontra, fun _ => ?_⟩
    cases hpure : w.pureEval with
    | true => simp [hpure] at hok
    | false =>
      simp only [hpure, Bool.false_eq_true, if_false] at hok
      obtain ⟨c, hdec, hp, _⟩ :=
        resolveDecrypt_result_ok w who file (resolvedName file) none [] p hok
      exact ⟨c, hdec, hp⟩
  | some h =>
    refine ⟨fun h2 hh => ?_, fun hcontra => Option.noConfusion hcontra⟩
    have hh2 : h2 = h := by injection hh with hx; exact hx.symm
    subst hh2
    by_cases halgo : h2.algo = HashAlgorithm.SHA256
    · cases hens : ensurePath w (makeFixedOutputPath (resolvedName file) h2) with
      | some s2 =>
        simp [halgo, hens] at hok
        exact hok.symm
      | none =>
        simp only [halgo, hens] at hok
        have hok2 : (resolveDecrypt w who file (resolvedName file) (some h2)
            [Event.ensure (makeFixedOutputPath (resolvedName file) h2)]).result =
            Except.ok p := by
          simpa [halgo, hens] using hok
        obtain ⟨c, hdec, hp, hdisj⟩ :=
          resolveDecrypt_result_ok w who file (resolvedName file) (some h2) _ p hok2
        rcases hdisj with hd1 | hd2
        · cases hd1
        · have : h2 = hashString w c := by injection hd2 with hx
          rw [hp, this]
    · simp [halgo] at hok

/-- In every branch, a decrypting run performs identity discovery. -/
theorem resolveDecrypt_events_discovery (w : World) (who file name : String)
    (eh : Option Hash) (ev0 : List Event) :
    Event.identityDiscovery ∈ (resolveDecrypt w who file name eh ev0).events := by
  unfold resolveDecrypt
  cases hu : (discoverIdentities w.env w.fs).usable.isEmpty with
  | true => simp [hu]
  | false =>
    cases hex : w.fs.pathExists file with
    | false => simp [hu, hex]
    | true =>
      cases hdec : w.decryptFn file (discoverIdentities w.env w.fs).usable with
      | error e => simp [hu, hex, hdec]
      | ok c =>
        cases eh with
        | none => simp [hu, hex, hdec]
        | some h =>
          by_cases hm : hashString w c = h
          · simp [hu, hex, hdec, hm]
          · simp [hu, hex, hdec, hm]

/-- C1: when an expected SHA-256 hash is supplied and the store path derived
from the name and that hash can be ensured (locally or via substitution),
`resolveAge` returns that path, performing no identity discovery, no
decryptor invocation and no filesystem access to the ciphertext. -/
theorem claim1_cache_hit (w : World) (who file : String) (h : Hash) (s2 : Store)
    (halgo : h.algo = HashAlgorithm.SHA256)
    (hens : ensurePath w (makeFixedOutputPath (resolvedName file) h) = some s2) :
    resolveAge w who file (some h) =
      { result := Except.ok (makeFixedOutputPath (resolvedName file) h),
        store := s2,
        events := [Event.ensure (makeFixedOutputPath (resolvedName file) h)] } ∧
    Event.identityDiscovery ∉ (resolveAge w who file (some h)).events ∧
    (∀ p ids, Event.decryptCall p ids ∉ (resolveAge w who file (some h)).events) ∧
    (∀ p, Event.ciphertextCheck p ∉ (resolveAge w who file (some h)).events) := by
  have he := resolveAge_hit_eq w who file h s2 halgo hens
  refine ⟨he, ?_, ?_, ?_⟩ <;> simp [he]

/-- C1 witness: a concrete hash-locked reference resolved from a store that
already holds the derived path, in a world with no identities, no readable
filesystem and a failing decryptor. -/
theorem claim1_cache_hit_witness :
    resolveAge wHit ("builtins.importAge") ("/repo/secret.age") (some hashA) =
      { result := Except.ok (makeFixedOutputPath (resolvedName ("/repo/secret.age")) hashA),
        store := wHit.store,
        events := [Event.ensure (makeFixedOutputPath (resolvedName ("/repo/secret.age")) hashA)] } ∧
    Event.identityDiscovery ∉
      (resolveAge wHit ("builtins.importAge") ("/repo/secret.age") (some hashA)).events ∧
    (∀ p ids, Event.decryptCall p ids ∉
      (resolveAge wHit ("builtins.importAge") ("/repo/secret.age") (some hashA)).events) ∧
    (∀ p, Event.ciphertextCheck p ∉
      (resolveAge wHit ("builtins.importAge") ("/repo/secret.age") (some hashA)).events) :=
  claim1_cache_hit wHit ("builtins.importAge") ("/repo/secret.age") hashA wHit.store rfl
    (by decide)

/-- C7: an expected hash tagged with an algorithm other than SHA-256 fails
with the configuration error before the cache check (no `ensure`), before
identity discovery and before any decryption. -/
theorem claim7_unsupported_algo (w : World) (who file : String) (h : Hash)
    (halgo : h.algo ≠ HashAlgorithm.SHA256) :
    resolveAge w who file (some h) =
      { result := Except.error (ResolveError.unsupportedHashAlgo (unsupportedAlgoMsg who)),
        store := w.store, events := [] } ∧
    (∀ p, Event.ensure p ∉ (resolveAge w who file (some h)).events) ∧
    Event.identityDiscovery ∉ (resolveAge w who file (some h)).events ∧
    (∀ p ids, Event.decryptCall p ids ∉ (resolveAge w who file (some h)).events) := by
  have he : resolveAge w who file (some h) =
      { result := Except.error (ResolveError.unsupportedHashAlgo (unsupportedAlgoMsg who)),
        store := w.store, events := [] } := by
    unfold resolveAge
    simp [halgo]
  refine ⟨he, ?_, ?_, ?_⟩ <;> simp [he]

/-- C7 witness: a SHA-1-tagged expected hash in an otherwise fully usable
world. -/
theorem claim7_unsupported_algo_witness :
    resolveAge wPlain ("builtins.readAge") ("/repo/secret.age") (some hashB) =
      { result := Except.error (ResolveError.unsupportedHashAlgo
          (unsupportedAlgoMsg ("builtins.readAge"))),
        store := wPlain.store, events := [] } ∧
    (∀ p, Event.ensure p ∉
      (resolveAge wPlain ("builtins.readAge") ("/repo/secret.age") (some hashB)).events) ∧
    Event.identityDiscovery ∉
      (resolveAge wPlain ("builtins.readAge") ("/repo/secret.age") (some hashB)).events ∧
    (∀ p ids, Event.decryptCall p ids ∉
      (resolveAge wPlain ("builtins.readAge") ("/repo/secret.age") (some hashB)).events) :=
  claim7_unsupported_algo wPlain ("builtins.readAge") ("/repo/secret.age") hashB (by decide)

/-- C3: with no expected hash in pure evaluation mode, `resolveAge` fails
immediately with the purity error (empty trace: no identity discovery, no
filesystem access); with an expected hash supplied the purity error can
never occur, and on a cache miss the run proceeds to identity discovery
even in pure mode. -/
theorem claim3_purity_gate (w : World) (who file : String) :
    (w.pureEval = true →
      resolveAge w who file none =
        { result := Except.error (ResolveError.purityViolation (purityMsg who)),
          store := w.store, events := [] }) ∧
    (∀ (h : Hash) (m : String),
      (resolveAge w who file (some h)).result ≠
        Except.error (ResolveError.purityViolation m)) ∧
    (∀ h : Hash, h.algo = HashAlgorithm.SHA256 →
      ensurePath w (makeFixedOutputPath (resolvedName file) h) = none →
      Event.identityDiscovery ∈ (resolveAge w who file (some h)).events) := by
  refine ⟨?_, ?_, ?_⟩
  · intro hp
    unfold resolveAge
    simp [hp]
  · intro h m
    unfold resolveAge
    by_cases halgo : h.algo = HashAlgorithm.SHA256
    · cases hens : ensurePath w (makeFixedOutputPath (resolvedName file) h) with
      | some s2 => simp [halgo, hens]
      | none =>
        simpa [halgo, hens] using
          resolveDecrypt_no_purity w who file (resolvedName file) (some h)
            [Event.ensure (makeFixedOutputPath (resolvedName file) h)] m
    · simp [halgo]
  · intro h halgo hens
    unfold resolveAge
    simpa [halgo, hens] using
      resolveDecrypt_events_discovery w who file (resolvedName file) (some h)
        [Event.ensure (makeFixedOutputPath (resolvedName file) h)]

/-- C3 witness: in the pure world the no-hash call fails with the purity
error and an empty trace, and with a (wrong-algorithm-free) hash the same
world never produces the purity error. -/
theorem claim3_purity_gate_witness :
    resolveAge wPure ("builtins.readAge") ("/repo/secret.age") none =
      { result := Except.error (ResolveError.purityViolation (purityMsg ("builtins.readAge"))),
        store := wPure.store, events := [] } ∧
    Event.identityDiscovery ∈
      (resolveAge wPure ("builtins.readAge") ("/repo/secret.age") (some hashWrong)).events :=
  ⟨(claim3_purity_gate wPure ("builtins.readAge") ("/repo/secret.age")).1 rfl,
    (claim3_purity_gate wPure ("builtins.readAge") ("/repo/secret.age")).2.2 hashWrong rfl
      (by decide)⟩

/-- C6: identity discovery — an override names the sole candidate, otherwise
exactly the two default key paths (EdDSA first, then RSA) or none at all
without a home directory; the usable list is exactly the accessible subset
of the candidates, in candidate order, and no error is raised. -/
theorem claim6_discovery (env : Env) (fs : FileSystem) :
    (∀ f, env.ageIdentityFile = some f → (discoverIdentities env fs).candidates = [f]) ∧
    (∀ h, env.ageIdentityFile = none → env.home = some h →
      (discoverIdentities env fs).candidates =
        [h ++ "/.ssh/id_ed25519", h ++ "/.ssh/id_rsa"]) ∧
    (env.ageIdentityFile = none → env.home = none →
      (discoverIdentities env fs).candidates = []) ∧
    (∀ p, p ∈ (discoverIdentities env fs).usable ↔
      p ∈ (discoverIdentities env fs).candidates ∧ fs.pathAccessible p = true) ∧
    List.Sublist (discoverIdentities env fs).usable (discoverIdentities env fs).candidates := by
  refine ⟨?_, ?_, ?_, ?_, ?_⟩
  · intro f hf
    simp [discoverIdentities, hf]
  · intro h hf hh
    simp [discoverIdentities, hf, hh]
  · intro hf hh
    simp [discoverIdentities, hf, hh]
  · intro p
    have heq : (discoverIdentities env fs).usable =
        (discoverIdentities env fs).candidates.filter fs.pathAccessible := rfl
    rw [heq]
    exact List.mem_filter
  · exact List.filter_sublist _

/-- C6 witness: the three candidate shapes at concrete environments. -/
theorem claim6_discovery_witness :
    (discoverIdentities envId fsLocked).candidates = [("/id/key.txt")] ∧
    (discoverIdentities envHome fsNone).candidates =
      [("/home/u") ++ "/.ssh/id_ed25519", ("/home/u") ++ "/.ssh/id_rsa"] ∧
    (discoverIdentities envNone fsNone).candidates = [] :=
  ⟨(claim6_discovery envId fsLocked).1 _ rfl,
    (claim6_discovery envHome fsNone).2.1 _ rfl rfl,
    (claim6_discovery envNone fsNone).2.2.1 rfl rfl⟩

/-- C10: an empty "hash" attribute parses to no expected hash, so the whole
resolution — purity gate and computed-hash diagnostic included — behaves
exactly as when the attribute is omitted. -/
theorem claim10_empty_hash (parse : String → Hash) (w : World) (who file : String) :
    parseHashAttr parse (some ("")) = none ∧
    resolveAge w who file (parseHashAttr parse (some (""))) =
      resolveAge w who file (parseHashAttr parse none) ∧
    (w.pureEval = true →
      (resolveAge w who file (parseHashAttr parse (some ("")))).result =
        Except.error (ResolveError.purityViolation (purityMsg who))) ∧
    prim_readAge w file (parseHashAttr parse (some (""))) = prim_readAge w file none := by
  have h0 : parseHashAttr parse (some ("")) = none := rfl
  have h1 : parseHashAttr parse none = none := rfl
  refine ⟨h0, by rw [h0, h1], ?_, by rw [h0]⟩
  intro hp
  rw [h0]
  unfold resolveAge
  simp [hp]

/-- C10 witness: the conjunction at a concrete parse function, world and
file; the purity-gate consequence is discharged at the pure world. -/
theorem claim10_empty_hash_witness :
    parseHashAttr (fun _ => hashA) (some ("")) = none ∧
    (resolveAge wPure ("builtins.readAge") ("/repo/secret.age")
        (parseHashAttr (fun _ => hashA) (some ("")))).result =
      Except.error (ResolveError.purityViolation (purityMsg ("builtins.readAge"))) :=
  ⟨(claim10_empty_hash (fun _ => hashA) wPure ("builtins.readAge") ("/repo/secret.age")).1,
    (claim10_empty_hash (fun _ => hashA) wPure ("builtins.readAge")
      ("/repo/secret.age")).2.2.1 rfl⟩

/-- C2: when an expected hash is supplied, decryption succeeds and the
SHA-256 of the decrypted bytes differs from it, `resolveAge` fails with the
hash-mismatch error; the message shows both digests in SRI form and depends
on the plaintext only through its digest, the store is unchanged and no
commit event occurs — the commit lies strictly after verification. -/
theorem claim2_hash_mismatch (w : World) (who file : String) (h : Hash) (c : List Nat)
    (halgo : h.algo = HashAlgorithm.SHA256)
    (hens : ensurePath w (makeFixedOutputPath (resolvedName file) h) = none)
    (hu : (discoverIdentities w.env w.fs).usable.isEmpty = false)
    (hex : w.fs.pathExists file = true)
    (hd : w.decryptFn file (discoverIdentities w.env w.fs).usable = Except.ok c)
    (hne : hashString w c ≠ h) :
    resolveAge w who file (some h) =
      { result := Except.error (ResolveError.hashMismatch
          (hashMismatchMsg who file h (hashString w c))),
        store := w.store,
        events := [Event.ensure (makeFixedOutputPath (resolvedName file) h),
          Event.identityDiscovery, Event.ciphertextCheck file,
          Event.decryptCall file (discoverIdentities w.env w.fs).usable] } ∧
    containsStr (hashMismatchMsg who file h (hashString w c)) (sriString h) ∧
    containsStr (hashMismatchMsg who file h (hashString w c)) (sriString (hashString w c)) ∧
    (∀ p, Event.commit p ∉ (resolveAge w who file (some h)).events) ∧
    (∀ c2, w.sha256 c2 = w.sha256 c →
      hashMismatchMsg who file h (hashString w c2) =
        hashMismatchMsg who file h (hashString w c)) := by
  have he2 : resolveAge w who file (some h) =
      resolveDecrypt w who file (resolvedName file) (some h)
        [Event.ensure (makeFixedOutputPath (resolvedName file) h)] := by
    unfold resolveAge
    simp [halgo, hens]
  have he : resolveAge w who file (some h) =
      { result := Except.error (ResolveError.hashMismatch
          (hashMismatchMsg who file h (hashString w c))),
        store := w.store,
        events := [Event.ensure (makeFixedOutputPath (resolvedName file) h),
          Event.identityDiscovery, Event.ciphertextCheck file,
          Event.decryptCall file (discoverIdentities w.env w.fs).usable] } := by
    rw [he2, resolveDecrypt_mismatch_eq w who file (resolvedName file) _ c h hu hex hd hne]
    simp
  refine ⟨he, ?_, ?_, ?_, ?_⟩
  · unfold hashMismatchMsg
    exact containsStr_append_right _ (containsStr_append_right _ (containsStr_append_right _
      (containsStr_append_left _ (containsStr_refl _))))
  · unfold hashMismatchMsg
    exact containsStr_append_right _ (containsStr_append_left _ (containsStr_refl _))
  · intro p
    simp [he]
  · intro c2 hcc
    simp [hashString, hcc]

/-- C2 witness: a deliberately wrong digest at a concrete world — the hash
checked out different and the run stops with the mismatch record. -/
theorem claim2_hash_mismatch_witness :
    hashString wPlain [104, 105] ≠ hashWrong ∧
    resolveAge wPlain ("builtins.readAge") ("/repo/secret.age") (some hashWrong) =
      { result := Except.error (ResolveError.hashMismatch
          (hashMismatchMsg ("builtins.readAge") ("/repo/secret.age") hashWrong
            (hashString wPlain [104, 105]))),
        store := wPlain.store,
        events := [Event.ensure (makeFixedOutputPath (resolvedName ("/repo/secret.age")) hashWrong),
          Event.identityDiscovery, Event.ciphertextCheck ("/repo/secret.age"),
          Event.decryptCall ("/repo/secret.age")
            (discoverIdentities wPlain.env wPlain.fs).usable] } :=
  ⟨by decide,
    (claim2_hash_mismatch wPlain ("builtins.readAge") ("/repo/secret.age") hashWrong [104, 105]
      rfl (by decide) (by decide) rfl rfl (by decide)).1⟩

/-- C5: a resolution reaching identity discovery with nothing usable fails
with the no-usable-identity error; the message names every candidate with
its missing/unreadable status, or reports the unresolved home directory
when there is no candidate, and carries the substitution note exactly when
an expected hash was supplied; the failure precedes the ciphertext
existence check and any decryption. -/
theorem claim5_no_identity (w : World) (who file : String) (eh : Option Hash)
    (hreach : eh = none ∧ w.pureEval = false ∨
      ∃ h, eh = some h ∧ h.algo = HashAlgorithm.SHA256 ∧
        ensurePath w (makeFixedOutputPath (resolvedName file) h) = none)
    (hempty : (discoverIdentities w.env w.fs).usable = []) :
    (resolveAge w who file eh).result =
      Except.error (ResolveError.noUsableIdentity
        (noIdentityMsg w.fs who (discoverIdentities w.env w.fs).candidates eh.isSome)) ∧
    (∀ c ∈ (discoverIdentities w.env w.fs).candidates,
      containsStr (noIdentityMsg w.fs who (discoverIdentities w.env w.fs).candidates eh.isSome)
          (describeCandidate w.fs c) ∧
        (describeCandidate w.fs c = c ++ (" (not found)") ∨
          describeCandidate w.fs c = c ++ (" (not readable)"))) ∧
    ((discoverIdentities w.env w.fs).candidates = [] →
      containsStr (noIdentityMsg w.fs who (discoverIdentities w.env w.fs).candidates eh.isSome)
        ("no candidate paths (could not determine home directory)")) ∧
    (eh.isSome = true →
      containsStr (noIdentityMsg w.fs who (discoverIdentities w.env w.fs).candidates eh.isSome)
        (" The hash-locked store path is not present and no identity was found to decrypt. You may need to run an initial impure evaluation on a machine with the identity, or populate the store path via substitution.")) ∧
    (∀ p, Event.ciphertextCheck p ∉ (resolveAge w who file eh).events) ∧
    (∀ p ids, Event.decryptCall p ids ∉ (resolveAge w who file eh).events) := by
  have hueq : (discoverIdentities w.env w.fs).usable.isEmpty = true := by
    simp [hempty]
  have hrun : ∃ ev0 : List Event, (∀ e ∈ ev0, ∃ p, e = Event.ensure p) ∧
      resolveAge w who file eh =
        { result := Except.error (ResolveError.noUsableIdentity
            (noIdentityMsg w.fs who (discoverIdentities w.env w.fs).candidates eh.isSome)),
          store := w.store, events := ev0 ++ [Event.identityDiscovery] } := by
    rcases hreach with ⟨heh, hp⟩ | ⟨h, heh, halgo, hens⟩
    · subst heh
      refine ⟨[], by simp, ?_⟩
      have he : resolveAge w who file none =
          resolveDecrypt w who file (resolvedName file) none [] := by
        unfold resolveAge
        simp [hp]
      rw [he, resolveDecrypt_noId_eq w who file (resolvedName file) none [] hueq]
    · subst heh
      refine ⟨[Event.ensure (makeFixedOutputPath (resolvedName file) h)], by simp, ?_⟩
      have he : resolveAge w who file (some h) =
          resolveDecrypt w who file (resolvedName file) (some h)
            [Event.ensure (makeFixedOutputPath (resolvedName file) h)] := by
        unfold resolveAge
        simp [halgo, hens]
      rw [he, resolveDecrypt_noId_eq w who file (resolvedName file) (some h) _ hueq]
  obtain ⟨ev0, hev0, he⟩ := hrun
  refine ⟨by rw [he], ?_, ?_, ?_, ?_, ?_⟩
  · intro c hc
    exact ⟨noIdentityMsg_contains_candidate w.fs who _ _ c hc,
      describeCandidate_status w.fs c (usable_empty_inaccessible w.env w.fs hempty c hc)⟩
  · intro hcand
    rw [hcand]
    exact noIdentityMsg_contains_home w.fs who _
  · intro hsome
    rw [hsome]
    exact noIdentityMsg_contains_substNote w.fs who _
  · intro p hmem
    rw [he] at hmem
    simp [List.mem_append] at hmem
    obtain ⟨q, hq⟩ := hev0 _ hmem
    exact Event.noConfusion hq
  · intro p ids hmem
    rw [he] at hmem
    simp [List.mem_append] at hmem
    obtain ⟨q, hq⟩ := hev0 _ hmem
    exact Event.noConfusion hq

/-- C5 witness: a hash-locked reference in a world whose sole override
candidate exists but is unreadable — the message names it, marks it
unreadable and carries the substitution note. -/
theorem claim5_no_identity_witness :
    (resolveAge wLocked ("builtins.readAge") ("/repo/secret.age") (some hashA)).result =
      Except.error (ResolveError.noUsableIdentity
        (noIdentityMsg wLocked.fs ("builtins.readAge")
          (discoverIdentities wLocked.env wLocked.fs).candidates
          (some hashA).isSome)) ∧
    containsStr (noIdentityMsg wLocked.fs ("builtins.readAge")
        (discoverIdentities wLocked.env wLocked.fs).candidates (some hashA).isSome)
      (describeCandidate wLocked.fs ("/id/key.txt")) ∧
    describeCandidate wLocked.fs ("/id/key.txt") = ("/id/key.txt") ++ (" (not readable)") := by
  have h := claim5_no_identity wLocked ("builtins.readAge") ("/repo/secret.age") (some hashA)
    (Or.inr ⟨hashA, rfl, rfl, by decide⟩) (by decide)
  have hc : ("/id/key.txt") ∈ (discoverIdentities wLocked.env wLocked.fs).candidates := by
    decide
  refine ⟨h.1, (h.2.1 _ hc).1, ?_⟩
  decide

/-- C4: (i) round-trip — a no-hash resolution of decryptable content commits
the fixed-output path of the computed hash, and re-resolving with that hash
as the expected one is a pure cache hit on the same path, with no further
decryptor invocation; (ii) determinism — two successful resolutions of the
same reference over the same decryptable ciphertext end at the same store
path, whatever the prior run did. -/
theorem claim4_roundtrip_det :
    (∀ (w : World) (who who2 file : String) (c : List Nat),
      w.pureEval = false →
      (discoverIdentities w.env w.fs).usable.isEmpty = false →
      w.fs.pathExists file = true →
      w.decryptFn file (discoverIdentities w.env w.fs).usable = Except.ok c →
      (resolveAge w who file none).result =
          Except.ok (makeFixedOutputPath (resolvedName file) (hashString w c)) ∧
      resolveAge { w with store := (resolveAge w who file none).store } who2 file
          (some (hashString w c)) =
        { result := Except.ok (makeFixedOutputPath (resolvedName file) (hashString w c)),
          store := (resolveAge w who file none).store,
          events := [Event.ensure
            (makeFixedOutputPath (resolvedName file) (hashString w c))] }) ∧
    (∀ (w1 w2 : World) (who1 who2 file : String) (eh : Option Hash) (C : List Nat)
        (p1 p2 : StorePath),
      (∀ ids, w1.decryptFn file ids = Except.ok C) →
      (∀ ids, w2.decryptFn file ids = Except.ok C) →
      w1.sha256 C = w2.sha256 C →
      (resolveAge w1 who1 file eh).result = Except.ok p1 →
      (resolveAge w2 who2 file eh).result = Except.ok p2 →
      p1 = p2) := by
  constructor
  · intro w who who2 file c hpure hu hex hd
    have hfirst : resolveAge w who file none =
        { result := Except.ok (makeFixedOutputPath (resolvedName file) (hashString w c)),
          store := (addToStoreFromDump w w.store (resolvedName file) c).2,
          events := [Event.identityDiscovery, Event.ciphertextCheck file,
            Event.decryptCall file (discoverIdentities w.env w.fs).usable,
            Event.commit (makeFixedOutputPath (resolvedName file) (hashString w c)),
            Event.warnEv (warnHashMsg who file (hashString w c))] } := by
      have h1 : resolveAge w who file none =
          resolveDecrypt w who file (resolvedName file) none [] := by
        unfold resolveAge
        simp [hpure]
      rw [h1, resolveDecrypt_none_eq w who file (resolvedName file) [] c hu hex hd]
      simp
    refine ⟨by rw [hfirst], ?_⟩
    have hstore : (resolveAge w who file none).store =
        (addToStoreFromDump w w.store (resolvedName file) c).2 := by
      rw [hfirst]
    have hsh : storeHas (addToStoreFromDump w w.store (resolvedName file) c).2
        (makeFixedOutputPath (resolvedName file) (hashString w c)) = true :=
      storeHas_addToStoreFromDump w w.store (resolvedName file) c
    have hens : ensurePath { w with store := (resolveAge w who file none).store }
        (makeFixedOutputPath (resolvedName file) (hashString w c)) =
        some (resolveAge w who file none).store := by
      unfold ensurePath
      rw [hstore]
      simp [hsh]
    exact resolveAge_hit_eq { w with store := (resolveAge w who file none).store }
      who2 file (hashString w c) (resolveAge w who file none).store rfl hens
  · intro w1 w2 who1 who2 file eh C p1 p2 hd1 hd2 hsha h1 h2
    obtain ⟨hsome1, hnone1⟩ := resolveAge_result_ok w1 who1 file eh p1 h1
    obtain ⟨hsome2, hnone2⟩ := resolveAge_result_ok w2 who2 file eh p2 h2
    cases eh with
    | some h => rw [hsome1 h rfl, hsome2 h rfl]
    | none =>
      obtain ⟨c1, hdec1, hp1⟩ := hnone1 rfl
      obtain ⟨c2, hdec2, hp2⟩ := hnone2 rfl
      have hc1 : c1 = C := by
        rw [hd1 _] at hdec1
        injection hdec1 with hx
        exact hx.symm
      have hc2 : c2 = C := by
        rw [hd2 _] at hdec2
        injection hdec2 with hx
        exact hx.symm
      subst hc1
      subst hc2
      rw [hp1, hp2]
      unfold hashString
      rw [hsha]

/-- C4 witness: the round-trip at a concrete world — the first (impure) run
commits, and the re-resolution with the printed hash is a one-event cache
hit on the same path. -/
theorem claim4_roundtrip_det_witness :
    (resolveAge wPlain ("builtins.readAge") ("/repo/secret.age") none).result =
      Except.ok (makeFixedOutputPath (resolvedName ("/repo/secret.age"))
        (hashString wPlain [104, 105])) ∧
    resolveAge { wPlain with
        store := (resolveAge wPlain ("builtins.readAge") ("/repo/secret.age") none).store }
      ("builtins.importAge") ("/repo/secret.age") (some (hashString wPlain [104, 105])) =
      { result := Except.ok (makeFixedOutputPath (resolvedName ("/repo/secret.age"))
          (hashString wPlain [104, 105])),
        store := (resolveAge wPlain ("builtins.readAge") ("/repo/secret.age") none).store,
        events := [Event.ensure (makeFixedOutputPath (resolvedName ("/repo/secret.age"))
          (hashString wPlain [104, 105]))] } :=
  claim4_roundtrip_det.1 wPlain ("builtins.readAge") ("builtins.importAge")
    ("/repo/secret.age") [104, 105] rfl (by decide) rfl rfl

/-- Run shape at the entry point: a successful no-hash resolution —
discovery, ciphertext check, decryption, commit, then the warning. -/
theorem resolveAge_none_eq (w : World) (who file : String) (c : List Nat)
    (hpure : w.pureEval = false)
    (hu : (discoverIdentities w.env w.fs).usable.isEmpty = false)
    (hex : w.fs.pathExists file = true)
    (hd : w.decryptFn file (discoverIdentities w.env w.fs).usable = Except.ok c) :
    resolveAge w who file none =
      { result := Except.ok (makeFixedOutputPath (resolvedName file) (hashString w c)),
        store := (addToStoreFromDump w w.store (resolvedName file) c).2,
        events := [Event.identityDiscovery, Event.ciphertextCheck file,
          Event.decryptCall file (discoverIdentities w.env w.fs).usable,
          Event.commit (makeFixedOutputPath (resolvedName file) (hashString w c)),
          Event.warnEv (warnHashMsg who file (hashString w c))] } := by
  have h1 : resolveAge w who file none =
      resolveDecrypt w who file (resolvedName file) none [] := by
    unfold resolveAge
    simp [hpure]
  rw [h1, resolveDecrypt_none_eq w who file (resolvedName file) [] c hu hex hd]
  simp

/-- C8 counterexample: a concrete successful no-hash resolution whose trace
holds the mandatory diagnostic, yet no warning precedes any commit — the
diagnostic follows the commit, refuting "emitted ... before the commit". -/
theorem claim8_warn_before_commit_cex :
    (resolveAge wPlain ("builtins.readAge") ("/repo/secret.age") none).events.any isWarn
      = true ∧
    (resolveAge wPlain ("builtins.readAge") ("/repo/secret.age") none).events.any isCommit
      = true ∧
    warnBeforeCommit
      (resolveAge wPlain ("builtins.readAge") ("/repo/secret.age") none).events = false := by
  refine ⟨?_, ?_, ?_⟩ <;> decide

/-- C8 (amended): every successful no-hash resolution emits the mandatory
diagnostic carrying the computed SHA-256 digest in SRI form, but emits it
after the store commit (immediately before returning), not before it. -/
theorem claim8_warn_after_commit (w : World) (who file : String) (c : List Nat)
    (hpure : w.pureEval = false)
    (hu : (discoverIdentities w.env w.fs).usable.isEmpty = false)
    (hex : w.fs.pathExists file = true)
    (hd : w.decryptFn file (discoverIdentities w.env w.fs).usable = Except.ok c) :
    resolveAge w who file none =
      { result := Except.ok (makeFixedOutputPath (resolvedName file) (hashString w c)),
        store := (addToStoreFromDump w w.store (resolvedName file) c).2,
        events := [Event.identityDiscovery, Event.ciphertextCheck file,
          Event.decryptCall file (discoverIdentities w.env w.fs).usable,
          Event.commit (makeFixedOutputPath (resolvedName file) (hashString w c)),
          Event.warnEv (warnHashMsg who file (hashString w c))] } ∧
    containsStr (warnHashMsg who file (hashString w c)) (sriString (hashString w c)) ∧
    (resolveAge w who file none).events.any isWarn = true ∧
    warnBeforeCommit (resolveAge w who file none).events = false := by
  have hfirst := resolveAge_none_eq w who file c hpure hu hex hd
  refine ⟨hfirst, ?_, ?_, ?_⟩
  · unfold warnHashMsg
    exact containsStr_append_right _ (containsStr_append_left _ (containsStr_refl _))
  · simp [hfirst, isWarn]
  · simp [hfirst, warnBeforeCommit, isWarn, isCommit]

/-- C8 witness for the amended statement: the amended run shape at a fresh
concrete world and file. -/
theorem claim8_warn_after_commit_witness :
    resolveAge wPlain ("builtins.importAge") ("/cfg/db.age") none =
      { result := Except.ok (makeFixedOutputPath (resolvedName ("/cfg/db.age"))
          (hashString wPlain [104, 105])),
        store := (addToStoreFromDump wPlain wPlain.store (resolvedName ("/cfg/db.age"))
          [104, 105]).2,
        events := [Event.identityDiscovery, Event.ciphertextCheck ("/cfg/db.age"),
          Event.decryptCall ("/cfg/db.age")
            (discoverIdentities wPlain.env wPlain.fs).usable,
          Event.commit (makeFixedOutputPath (resolvedName ("/cfg/db.age"))
            (hashString wPlain [104, 105])),
          Event.warnEv (warnHashMsg ("builtins.importAge") ("/cfg/db.age")
            (hashString wPlain [104, 105]))] } ∧
    warnBeforeCommit
      (resolveAge wPlain ("builtins.importAge") ("/cfg/db.age") none).events = false :=
  ⟨(claim8_warn_after_commit wPlain ("builtins.importAge") ("/cfg/db.age") [104, 105]
      rfl (by decide) rfl rfl).1,
    (claim8_warn_after_commit wPlain ("builtins.importAge") ("/cfg/db.age") [104, 105]
      rfl (by decide) rfl rfl).2.2.2⟩

/-- C9: decrypted content with an embedded NUL byte is still committed to
the store by the resolver, which returns the path; the string-oriented
caller `builtins.readAge` then rejects it — only after the commit, whose
raw bytes remain in the returned store. -/
theorem claim9_nul_commit_then_reject (w : World) (file : String) (c : List Nat)
    (hpure : w.pureEval = false)
    (hu : (discoverIdentities w.env w.fs).usable.isEmpty = false)
    (hex : w.fs.pathExists file = true)
    (hd : w.decryptFn file (discoverIdentities w.env w.fs).usable = Except.ok c)
    (hnul : c.contains 0 = true)
    (hfresh : storeHas w.store
      (makeFixedOutputPath (resolvedName file) (hashString w c)) = false) :
    (resolveAge w ("builtins.readAge") file none).result =
      Except.ok (makeFixedOutputPath (resolvedName file) (hashString w c)) ∧
    storeContent (resolveAge w ("builtins.readAge") file none).store
      (makeFixedOutputPath (resolvedName file) (hashString w c)) = some c ∧
    Event.commit (makeFixedOutputPath (resolvedName file) (hashString w c)) ∈
      (resolveAge w ("builtins.readAge") file none).events ∧
    prim_readAge w file none =
      { result := Except.error (ReadError.nulByte (readAgeNulMsg file)),
        store := (resolveAge w ("builtins.readAge") file none).store,
        events := (resolveAge w ("builtins.readAge") file none).events } := by
  have hfirst := resolveAge_none_eq w ("builtins.readAge") file c hpure hu hex hd
  have hstore2 : (addToStoreFromDump w w.store (resolvedName file) c).2 =
      (makeFixedOutputPath (resolvedName file) (hashString w c), c) :: w.store := by
    unfold addToStoreFromDump
    simp [hfresh]
  have hcontent : storeContent
      ((makeFixedOutputPath (resolvedName file) (hashString w c), c) :: w.store)
      (makeFixedOutputPath (resolvedName file) (hashString w c)) = some c := by
    simp [storeContent]
  refine ⟨by rw [hfirst], ?_, ?_, ?_⟩
  · rw [hfirst]
    show storeContent (addToStoreFromDump w w.store (resolvedName file) c).2
      (makeFixedOutputPath (resolvedName file) (hashString w c)) = some c
    rw [hstore2]
    exact hcontent
  · rw [hfirst]
    simp
  · unfold prim_readAge
    rw [hfirst, hstore2]
    simp [storeContent, hnul]
    simpa using hnul

/-- C9 witness: the NUL world — the resolver commits the three raw bytes
and `builtins.readAge` rejects them afterwards. -/
theorem claim9_nul_commit_then_reject_witness :
    ([104, 0, 105].contains 0 = true) ∧
    prim_readAge wNul ("/repo/secret.age") none =
      { result := Except.error (ReadError.nulByte (readAgeNulMsg ("/repo/secret.age"))),
        store := (resolveAge wNul ("builtins.readAge") ("/repo/secret.age") none).store,
        events := (resolveAge wNul ("builtins.readAge") ("/repo/secret.age") none).events } :=
  ⟨by decide,
    (claim9_nul_commit_then_reject wNul ("/repo/secret.age") [104, 0, 105]
      rfl (by decide) rfl rfl (by decide) (by decide)).2.2.2⟩

end MiniAgenix
